import Mathlib

/-!
# Shallow embedding of the SPARE worker-side orchestration core

This file embeds, in Lean 4, the parts of the `valebes/spare` worker
(`src/spare/src/ohsw/src/...`) that the specification's claims are about:

* the local resource accountant (`orchestrator/local_resources.rs`),
* the admission and retry logic of the `POST /invoke` handler and the
  per-request pipeline `start_instance` (`endpoints.rs`),
* the host-to-guest framing written on the vsock stream (`endpoints.rs`),
* the neighbor registry: emergency masking, the two unmasked accessors and
  the distance sort (`orchestrator/global/mod.rs`, `orchestrator/global/geo_distance.rs`),
* the startup strategy selection (`orchestrator/mod.rs`),
* the guest IP address pool (`net/addresses.rs`),
* the hop counter carried by forwarded requests
  (`orchestrator/global/mod.rs`, `orchestrator/global_resources.rs`).

External collaborators (the microVM monitor, the actual Unix sockets, the
database, the geodesic-distance library) are modelled as oracles: booleans or
values describing the outcome of each external call, so the embedded
definitions capture exactly the control flow and state updates of the Rust
source.  Machine integers are `Nat` with explicit `% 2 ^ 64` bounds where
overflow matters.
-/

namespace Spare

/-- usize on the 64-bit targets the worker runs on. -/
def USIZE : Nat := 2 ^ 64

/-! ## Local resource accountant — `orchestrator/local_resources.rs`

`LocalResources` holds `cpus_available: usize`.  `acquire_cpus` is
`checked_sub`, `release_cpus` is `checked_add`; both return
`Err(InsufficientResources)` on under/overflow and mutate only on success. -/

/-- Error type of the orchestrator (`orchestrator/mod.rs`). -/
inductive OrchestratorError
  | InsufficientResources
  deriving DecidableEq, Repr

/-- `LocalResources` (`local_resources.rs`): the free CPU units of the node. -/
structure LocalResources where
  cpus_available : Nat
  deriving DecidableEq, Repr

/-- `LocalResources::acquire_cpus`: `checked_sub` on `cpus_available`.
On `usize` the subtraction never wraps, so this is exactly the `≤` guard. -/
def LocalResources.acquire_cpus (r : LocalResources) (cpus : Nat) :
    Except OrchestratorError LocalResources :=
  if cpus ≤ r.cpus_available then
    .ok ⟨r.cpus_available - cpus⟩
  else
    .error .InsufficientResources

/-- `LocalResources::release_cpus`: `checked_add` on the 64-bit `usize`
`cpus_available`; overflow yields `Err(InsufficientResources)`. -/
def LocalResources.release_cpus (r : LocalResources) (cpus : Nat) :
    Except OrchestratorError LocalResources :=
  if r.cpus_available + cpus < USIZE then
    .ok ⟨r.cpus_available + cpus⟩
  else
    .error .InsufficientResources

/-- `Orchestrator::check_and_acquire_resources` (`orchestrator/mod.rs` lines
276-304): fail if `cpus` exceeds the free units, fail if `memory` (KB)
exceeds the OS-reported available memory (`availMem`, an oracle for
`LocalResources::get_available_memory`), otherwise `acquire_cpus`.
Note that on every `Err` path no CPUs have been acquired. -/
def check_and_acquire_resources (r : LocalResources) (cpus memory availMem : Nat) :
    Except OrchestratorError LocalResources :=
  if cpus > r.cpus_available then .error .InsufficientResources
  else if memory > availMem then .error .InsufficientResources
  else r.acquire_cpus cpus

/-- `Orchestrator::release_resources` (`orchestrator/mod.rs`): delegates to
`release_cpus`. -/
def release_resources (r : LocalResources) (cpus : Nat) :
    Except OrchestratorError LocalResources :=
  r.release_cpus cpus

/-! ## The invoke request — `api/invoke.rs` -/

/-- `InvokeFunction` (`api/invoke.rs`).  `vcpus`, `memory` and `hops` are
`i32` in the source, modelled as `Int`; the payload is an optional string,
modelled as its byte sequence (`Nat`s below 256). -/
structure InvokeFunction where
  function : String
  image : String
  vcpus : Int
  memory : Int
  payload : Option (List Nat)
  emergency : Bool
  hops : Int
  deriving DecidableEq, Repr

/-! ## Host→guest framing — `endpoints.rs` lines 334-446

After the handshake, `start_instance` writes the payload on the vsock
stream.  With `Some(payload)` it writes the 8-byte big-endian `usize`
`payload.len()` and then `payload.as_bytes()`; with `None` it writes the
8-byte buffer `[0; 8]` and nothing else.  The two `try_write` loops repeat
until every byte of the buffer has been written, so their net effect is the
concatenation of the buffers; the functions below give that emitted byte
sequence. -/

/-- `usize::to_be_bytes`: the eight big-endian bytes of `n % 2 ^ 64`. -/
def u64ToBeBytes (n : Nat) : List Nat :=
  [n / 2 ^ 56 % 256, n / 2 ^ 48 % 256, n / 2 ^ 40 % 256, n / 2 ^ 32 % 256,
   n / 2 ^ 24 % 256, n / 2 ^ 16 % 256, n / 2 ^ 8 % 256, n % 256]

/-- Big-endian decoding of a byte sequence (the guest-side reading of the
length prefix): Horner evaluation in base 256. -/
def beBytesToNat (bs : List Nat) : Nat :=
  bs.foldl (fun acc b => acc * 256 + b) 0

/-- The bytes `start_instance` writes on the host→guest stream for a given
payload (`endpoints.rs` lines 334-446): length prefix then raw payload for
`Some`, exactly eight zero bytes for `None`. -/
def hostToGuestBytes (payload : Option (List Nat)) : List Nat :=
  match payload with
  | some p => u64ToBeBytes p.length ++ p
  | none => [0, 0, 0, 0, 0, 0, 0, 0]

/-! ## The per-request pipeline — `endpoints.rs::start_instance`

Every external interaction of one `start_instance` attempt is an oracle
field of `AttemptEnv`; `start_instance` reproduces the order of the
fallible steps and the error each exit path returns.  Alongside the
`Result` it returns how many database `Instance` rows the attempt inserted
and the bytes it wrote to the guest. -/

/-- `InstanceError` (`endpoints.rs`), restricted to the variants
`start_instance` actually returns. -/
inductive InstanceError
  | InstanceCreation
  | InstanceStart
  | VSock
  | VSockTimeout
  | VSockCreation
  | Database
  deriving DecidableEq, Repr

/-- Outcome of `timeout(500ms, socket.accept())`. -/
inductive AcceptOutcome
  | accepted
  | sockError
  | timedOut
  deriving DecidableEq, Repr

/-- Outcome of the handshake read loop (`endpoints.rs` lines 269-332):
either the loop ends with a buffer whose lossy UTF-8 decoding does or does
not contain `"ready"`, or a socket error occurred, or more than 100
`WouldBlock` retries elapsed. -/
inductive HandshakeOutcome
  | readDone (containsReady : Bool)
  | sockError
  | tooManyRetries
  deriving DecidableEq, Repr

/-- Oracle for the external effects of one `start_instance` attempt. -/
structure AttemptEnv where
  /-- `builder.new_instance(...)` succeeded. -/
  createOk : Bool
  /-- `instance.insert(&db_pool)` succeeded. -/
  insertOk : Bool
  /-- `UnixListener::bind(path)` succeeded. -/
  bindOk : Bool
  /-- `fc_instance.start()` succeeded. -/
  startOk : Bool
  /-- result of accepting the vsock connection. -/
  accept : AcceptOutcome
  /-- result of the handshake read loop. -/
  handshake : HandshakeOutcome
  /-- the payload-write loops all succeeded. -/
  payloadWriteOk : Bool
  /-- the response length/body read loops succeeded. -/
  respReadOk : Bool
  /-- the response body the guest sent back. -/
  respBody : List Nat
  deriving DecidableEq, Repr

/-- One `start_instance` attempt (`endpoints.rs` lines 160-643): the chain
of fallible steps in source order.  Returns the attempt's `Result`, the
number of database rows it inserted (the row persists even when a later
step fails: `emergency_cleanup` only flips its status to `"failed"`), and
the bytes written to the guest. -/
def start_instance (data : InvokeFunction) (env : AttemptEnv) :
    Except InstanceError (List Nat) × Nat × List Nat :=
  if !env.createOk then (.error .InstanceCreation, 0, [])
  else if !env.insertOk then (.error .Database, 0, [])
  else if !env.bindOk then (.error .VSockCreation, 1, [])
  else if !env.startOk then (.error .InstanceStart, 1, [])
  else
    match env.accept with
    | .sockError => (.error .VSock, 1, [])
    | .timedOut => (.error .VSockTimeout, 1, [])
    | .accepted =>
      match env.handshake with
      | .sockError => (.error .VSock, 1, [])
      | .tooManyRetries => (.error .VSockTimeout, 1, [])
      | .readDone containsReady =>
        if !containsReady then (.error .VSock, 1, [])
        else if !env.payloadWriteOk then (.error .VSock, 1, [])
        else if !env.respReadOk then (.error .VSock, 1, hostToGuestBytes data.payload)
        else (.ok env.respBody, 1, hostToGuestBytes data.payload)

/-- Whether the attempt got past the `message.contains("ready")` check,
i.e. whether the handshake succeeded before any failure. -/
def handshakeSucceeded (env : AttemptEnv) : Bool :=
  env.createOk && env.insertOk && env.bindOk && env.startOk &&
    (env.accept = AcceptOutcome.accepted : Bool) &&
    (match env.handshake with
     | .readDone containsReady => containsReady
     | _ => false)

/-! ## The invoke handler — `endpoints.rs::invoke` (lines 82-141)

`invoke` rejects `hops > 10`, offloads when the node is in an emergency
area and the request is not flagged emergency, tries to acquire resources
(offloading after a `release_resources` call when that fails), and
otherwise drives `start_instance` in a retry loop with `max_retries = 3`,
releasing the CPUs on both exits of the loop. -/

/-- The body of the retry loop of `invoke` (`endpoints.rs` lines 121-140),
recursing on `rem`, the number of attempts the `retries > max_retries`
guard still allows (`rem = 4 - retries` throughout).  `envs i` is the
oracle of the attempt made with `retries = i`.  Returns how many times
`start_instance` was driven, the successful body if any, and the total
number of database rows inserted. -/
def invokeLoopAux (data : InvokeFunction) (envs : Nat → AttemptEnv) :
    Nat → Nat → Nat × Option (List Nat) × Nat
  | 0, _ => (0, none, 0)
  | rem + 1, retries =>
    match start_instance data (envs retries) with
    | (.ok body, recs, _) => (1, some body, recs)
    | (.error _, recs, _) =>
      let rest := invokeLoopAux data envs rem (retries + 1)
      (rest.1 + 1, rest.2.1, recs + rest.2.2)

/-- The retry loop of `invoke` started at a given `retries` value: the
`if retries > max_retries` guard with `max_retries = 3` means exactly
`4 - retries` more attempts may be driven. -/
def invokeLoopFrom (data : InvokeFunction) (envs : Nat → AttemptEnv) (retries : Nat) :
    Nat × Option (List Nat) × Nat :=
  invokeLoopAux data envs (4 - retries) retries

/-- HTTP responses the handler produces. -/
inductive InvokeResponse
  | ok (body : List Nat)
  | err500 (msg : String)
  deriving DecidableEq, Repr

/-- The node state the handler can change: the CPU accountant and the
number of persisted invocation records. -/
structure NodeState where
  resources : LocalResources
  records : Nat
  deriving DecidableEq, Repr

/-- The `POST /invoke` handler (`endpoints.rs` lines 82-141).  Oracles:
`availMem` for the OS memory read, `inEmergencyArea` for
`orchestrator.in_emergency_area()`, `offloadResult` for the response
`orchestrator.offload` would produce, `envs` for the pipeline attempts.
Reproduces, in source order: the hop check, the emergency branch, the
admission (with the `release_resources` call the handler issues when
admission fails), and the retry loop with its two release points. -/
def invoke (st : NodeState) (data : InvokeFunction) (availMem : Nat)
    (inEmergencyArea : Bool) (offloadResult : InvokeResponse)
    (envs : Nat → AttemptEnv) : NodeState × InvokeResponse :=
  if data.hops > 10 then
    (st, .err500 "Too many hops\n")
  else if inEmergencyArea && !data.emergency then
    (st, offloadResult)
  else
    let vcpus := data.vcpus.toNat
    match check_and_acquire_resources st.resources vcpus (data.memory.toNat * 1024) availMem with
    | .error _ =>
      -- `let _ = orchestrator.release_resources(data.vcpus ...)` then offload
      let r := match release_resources st.resources vcpus with
        | .ok r => r
        | .error _ => st.resources
      ({ st with resources := r }, offloadResult)
    | .ok racq =>
      let loop := invokeLoopFrom data envs 0
      let rfin := match release_resources racq vcpus with
        | .ok r => r
        | .error _ => racq
      match loop.2.1 with
      | some body =>
        (⟨rfin, st.records + loop.2.2⟩, .ok body)
      | none =>
        (⟨rfin, st.records + loop.2.2⟩, .err500 "Failed to start instance\n")

/-! ## Neighbor registry — `orchestrator/global/mod.rs`

The registry stores trait objects; each concrete strategy struct
(`GeoDistance`, `SimpleCellular`, `SmartLatency`) carries the same three
fields the registry reads and writes: `address`, `position` and the
`emergency` mask.  The geodesic distance comes from the external
`longitude` crate (Haversine over `f64`), modelled below as an explicit
distance parameter `dist`; positions are pairs of rationals. -/

/-- `NeighborNodeStrategy` (`global/mod.rs`). -/
inductive NeighborNodeStrategy
  | GeoDistance
  | SimpleCellular
  | SmartLatency
  deriving DecidableEq, Repr

/-- The peer data every node trait object carries (`NeighborNode` trait of
`global/mod.rs` plus the shared fields of the strategy structs). -/
structure NeighborNode where
  address : String
  position : ℚ × ℚ
  emergency : Bool
  deriving DecidableEq, Repr

/-- `Emergency` (`global/emergency.rs`): center position and radius in
meters. -/
structure Emergency where
  position : ℚ × ℚ
  radius : ℚ
  deriving DecidableEq, Repr

/-- `NeighborNodeList` (`global/mod.rs`): the peers, the strategy tag, and
the active emergency if any. -/
structure NeighborNodeList where
  nodes : List NeighborNode
  strategy : NeighborNodeStrategy
  emergency : Option Emergency
  deriving DecidableEq, Repr

/-- The per-node body of `NeighborNodeList::set_emergency` (`global/mod.rs`
lines 191-198): a node within `radius` of the emergency center gets its
mask set to `true`; all other nodes are left untouched.  `dist` is the
external geodesic distance `em_pos.distance(node)`. -/
def setEmergencyNodes (dist : ℚ × ℚ → ℚ × ℚ → ℚ) (em : Emergency)
    (nodes : List NeighborNode) : List NeighborNode :=
  nodes.map fun n =>
    if dist em.position n.position ≤ em.radius then { n with emergency := true } else n

/-- `NeighborNodeList::set_emergency`: flag the nodes, then store the
emergency. -/
def NeighborNodeList.set_emergency (dist : ℚ × ℚ → ℚ × ℚ → ℚ)
    (l : NeighborNodeList) (em : Emergency) : NeighborNodeList :=
  { l with nodes := setEmergencyNodes dist em l.nodes, emergency := some em }

/-- `NeighborNodeList::clear_emergency` (`global/mod.rs` lines 201-206):
drop the stored emergency and clear every mask. -/
def NeighborNodeList.clear_emergency (l : NeighborNodeList) : NeighborNodeList :=
  { l with nodes := l.nodes.map fun n => { n with emergency := false },
           emergency := none }

/-- The loop of `NeighborNodeList::get_nth` (`global/mod.rs` lines
215-226): walk the nodes, counting only unmasked ones, and return the node
at which the counter equals `nth`. -/
def getNthAux (nodes : List NeighborNode) (nth count : Nat) : Option NeighborNode :=
  match nodes with
  | [] => none
  | node :: rest =>
    if !node.emergency then
      if count = nth then some node
      else getNthAux rest nth (count + 1)
    else
      getNthAux rest nth count

/-- `NeighborNodeList::get_nth`: the `nth` unmasked node, counted from 0. -/
def NeighborNodeList.get_nth (l : NeighborNodeList) (nth : Nat) : Option NeighborNode :=
  getNthAux l.nodes nth 0

/-- The loop of `geo_distance::get_nth_closest_node` (`geo_distance.rs`
lines 62-78): for each unmasked node the counter is incremented first and
then compared with `n`. -/
def getNthClosestAux (nodes : List NeighborNode) (n count : Nat) : Option NeighborNode :=
  match nodes with
  | [] => none
  | node :: rest =>
    if !node.emergency then
      if count + 1 = n then some node
      else getNthClosestAux rest n (count + 1)
    else
      getNthClosestAux rest n count

/-- `geo_distance::get_nth_closest_node` (`geo_distance.rs` lines 62-78).
The `position` argument is unused in the source (the list is kept sorted);
it is kept here for faithfulness. -/
def get_nth_closest_node (nodes : NeighborNodeList) (_position : ℚ × ℚ) (n : Nat) :
    Option NeighborNode :=
  getNthClosestAux nodes.nodes n 0

/-- `Orchestrator::number_of_nodes` (`orchestrator/mod.rs` lines 115-129),
the `count_available()` of the spec: the number of unmasked peers. -/
def count_available (l : NeighborNodeList) : Nat :=
  (l.nodes.filter fun n => !n.emergency).length

/-- `NeighborNodeList::sort_by_distance` (`global/mod.rs` lines 291-311):
`Vec::sort_by` — a stable sort — with the comparator
`a.distance(current).partial_cmp(&b.distance(current))`.  `score` is the
external geodesic distance of a node to the fixed `current` node. -/
def sort_by_distance (score : NeighborNode → ℚ) (nodes : List NeighborNode) :
    List NeighborNode :=
  nodes.mergeSort fun a b => decide (score a ≤ score b)

/-! ## Startup strategy selection — `Orchestrator::new`
(`orchestrator/mod.rs` lines 43-68)

The strategy starts as `GeoDistance`; if the `STRATEGY` environment
variable is set it is matched against `"SimpleCellular"` and
`"GeoDistance"`, and any other value only logs
`error!("Unknown strategy: ...")` and keeps the default.  A missing
variable keeps the default too; startup always proceeds. -/

/-- The strategy `Orchestrator::new` ends up with for a given value of the
`STRATEGY` environment variable (`none` = variable not set). -/
def strategyFromEnv (env : Option String) : NeighborNodeStrategy :=
  match env with
  | some s =>
    if s = "SimpleCellular" then .SimpleCellular
    else if s = "GeoDistance" then .GeoDistance
    else .GeoDistance
  | none => .GeoDistance

/-- Modelled from the spec: `STRATEGY ∈ {GeoDistance, SimpleCellular,
SmartLatency}. Missing or invalid values abort startup.`  The spec-side
strategy selection is a partial function: `none` means startup aborts. -/
def specStrategyFromEnv (env : Option String) : Option NeighborNodeStrategy :=
  match env with
  | some "GeoDistance" => some .GeoDistance
  | some "SimpleCellular" => some .SimpleCellular
  | some "SmartLatency" => some .SmartLatency
  | _ => none

/-! ## Hop counter on offload

Two forwarding functions exist in the tree.  The live offload path
(`Orchestrator::offload` → `NeighborNodeList::get_nth` →
`NeighborNodeType::invoke`, `global/mod.rs` lines 73-96) posts
`send_json(&data)` with the request exactly as received.  The superseded
`Node::invoke` (`orchestrator/global_resources.rs` lines 139-147, a file no
`mod` declaration includes) did `data.hops += 1` before posting. -/

/-- The request body `NeighborNodeType::invoke` posts to the peer
(`global/mod.rs` lines 73-96): `data`, unchanged. -/
def neighborNodeTypeInvokeSent (data : InvokeFunction) : InvokeFunction :=
  data

/-- The request body the superseded `Node::invoke` posts
(`global_resources.rs` lines 139-147): the hop counter is incremented
first. -/
def nodeInvokeSent (data : InvokeFunction) : InvokeFunction :=
  { data with hops := data.hops + 1 }

/-! ## The guest IP pool — `net/addresses.rs`

`Addresses` holds the CIDR network, a `Vec` of released addresses, the
last index handed out by scanning, and a membership filter recording the
addresses currently handed out.  The source's `qfilter::Filter` is an
approximate filter used through its exact contract (insert / contains /
remove); it is modelled as the exact list of inserted addresses.
IPv4 addresses are modelled as `Nat`s; `Ipv4Network::nth i` is
`base + i` for `i < size` where `size = 2 ^ (32 - prefixLen)`.
`Vec::push`/`Vec::pop` act on one end of `available`; the list head plays
that role here. -/

/-- `Addresses` (`net/addresses.rs`). -/
structure Addresses where
  /-- first address of the network (`Ipv4Network` base). -/
  base : Nat
  /-- number of addresses in the network (`Ipv4Network::size`). -/
  size : Nat
  /-- `available`: addresses released and ready for reuse. -/
  available : List Nat
  /-- `last_assigned`. -/
  last_assigned : Nat
  /-- the addresses recorded in the filter. -/
  filter : List Nat
  deriving DecidableEq, Repr

/-- `Ipv4Network::nth`. -/
def Addresses.nth (a : Addresses) (i : Nat) : Option Nat :=
  if i < a.size then some (a.base + i) else none

/-- `Addresses::new` (`net/addresses.rs` lines 24-33): empty `available`,
`last_assigned = 1` (because `.1` is reserved), empty filter. -/
def Addresses.new (base prefixLen : Nat) : Addresses :=
  { base := base
    size := 2 ^ (32 - prefixLen)
    available := []
    last_assigned := 1
    filter := [] }

/-- The scan loop of `Addresses::get` (`net/addresses.rs` lines 42-58):
starting from `i`, skip addresses the filter contains; once `i` reaches
`size - 1` (the broadcast address) reset `last_assigned` and give up; on
the first address not in the filter, record it in the filter and in
`last_assigned` and return it.  The fuel argument only bounds the
recursion; the source's loop advances `i` at every step exactly as here.
If `nth i` is `None` the `while let` exits and the source panics on
`unwrap`; that case (unreachable while `i < size`) is modelled as `none`
with the state unchanged. -/
def getScan (a : Addresses) (i fuel : Nat) : Addresses × Option Nat :=
  match fuel with
  | 0 => (a, none)
  | fuel + 1 =>
    match a.nth i with
    | none => (a, none)
    | some ip =>
      if !a.filter.contains ip then
        ({ a with last_assigned := i, filter := ip :: a.filter }, some ip)
      else if i + 1 ≥ a.size - 1 then
        ({ a with last_assigned := 1 }, none)
      else
        getScan a (i + 1) fuel

/-- `Addresses::get` (`net/addresses.rs` lines 40-64): pop a released
address if one is ready (recording it in the filter), otherwise scan from
`last_assigned + 1`. -/
def Addresses.get (a : Addresses) : Addresses × Option Nat :=
  match a.available with
  | [] => getScan a (a.last_assigned + 1) a.size
  | ip :: rest =>
    ({ a with available := rest, filter := ip :: a.filter }, some ip)

/-- `Addresses::release` (`net/addresses.rs` lines 67-70): push the address
back and remove it from the filter. -/
def Addresses.release (a : Addresses) (ip : Nat) : Addresses :=
  { a with available := ip :: a.available, filter := a.filter.erase ip }

/-! ### Traces of pool operations

To state uniqueness of in-use addresses we run the pool on a sequence of
`get` / `release` calls, threading the ghost multiset of addresses handed
out and not yet released (`inUse`). -/

/-- One call on the pool. -/
inductive PoolOp
  | get
  | release (ip : Nat)
  deriving DecidableEq, Repr

/-- Does every `release` in the trace release an address that is in use at
that point?  (The allocator contract: each `release` returns exactly one
outstanding address.) -/
def releasesWellFormed (a : Addresses) (inUse : List Nat) : List PoolOp → Bool
  | [] => true
  | .get :: rest =>
    match a.get with
    | (a', some ip) => releasesWellFormed a' (ip :: inUse) rest
    | (a', none) => releasesWellFormed a' inUse rest
  | .release ip :: rest =>
    inUse.contains ip && releasesWellFormed (a.release ip) (inUse.erase ip) rest

/-- Does every `get` in the trace return an address that is *not* currently
in use?  This is the claim's uniqueness property: an address handed out is
never handed out again before an intervening release. -/
def getsUnique (a : Addresses) (inUse : List Nat) : List PoolOp → Bool
  | [] => true
  | .get :: rest =>
    match a.get with
    | (a', some ip) => !inUse.contains ip && getsUnique a' (ip :: inUse) rest
    | (a', none) => getsUnique a' inUse rest
  | .release ip :: rest =>
    getsUnique (a.release ip) (inUse.erase ip) rest

/-! ## Concrete inputs used by the end-to-end evaluations -/

/-- An attempt oracle in which every external step succeeds and the guest
answers `"hello"`. -/
def envAllOk : AttemptEnv :=
  { createOk := true, insertOk := true, bindOk := true, startOk := true,
    accept := .accepted, handshake := .readDone true, payloadWriteOk := true,
    respReadOk := true, respBody := [104, 101, 108, 108, 111] }

/-- An attempt oracle that fails at the payload write: the handshake has
already succeeded when the failure is observed. -/
def envPostFail : AttemptEnv :=
  { envAllOk with payloadWriteOk := false }

/-- Attempt oracles: a post-handshake failure on the first attempt, all
later attempts fully successful. -/
def envsPostThenOk : Nat → AttemptEnv :=
  fun i => if i = 0 then envPostFail else envAllOk

/-- A basic invoke request: 1 vcpu, 64 MB, no payload, hops 0. -/
def reqNoPayload : InvokeFunction :=
  { function := "f", image := "img", vcpus := 1, memory := 64,
    payload := none, emergency := false, hops := 0 }

/-- The same request asking for 8 vcpus. -/
def reqEight : InvokeFunction :=
  { reqNoPayload with vcpus := 8 }

/-- The same request with a one-byte payload. -/
def reqPayloadA : InvokeFunction :=
  { reqNoPayload with payload := some [97] }

/-- The same request arriving with `hops = 11`. -/
def reqHops11 : InvokeFunction :=
  { reqNoPayload with hops := 11 }

/-- A peer already masked by an earlier emergency, far from the origin:
the geodesic (Haversine) distance from `(0, 0)` to `(10, 10)` is about
1,565,000 meters. -/
def peerP3 : NeighborNode :=
  { address := "p3", position := (10, 10), emergency := true }

/-- An emergency at the origin with a 2,000 m radius. -/
def emDemo : Emergency :=
  { position := (0, 0), radius := 2000 }

/-- A registry holding only `peerP3`, under GeoDistance, no stored
emergency. -/
def nlDemo : NeighborNodeList :=
  { nodes := [peerP3], strategy := .GeoDistance, emergency := none }

/-- A concrete instance of the external geodesic-distance oracle agreeing
with the Haversine values at the demo points: 0 from a point to itself,
1,565,000 m between the two distinct demo positions. -/
def demoDist (p q : ℚ × ℚ) : ℚ :=
  if p = q then 0 else 1565000

/-- A concrete score oracle for the sort: the first coordinate of the
node's position. -/
def scoreFst (n : NeighborNode) : ℚ :=
  n.position.1

/-- Two unmasked demo peers for the sort evaluation. -/
def peerA : NeighborNode :=
  { address := "a", position := (5, 0), emergency := false }

/-- Second demo peer, closer than `peerA` under `scoreFst`. -/
def peerB : NeighborNode :=
  { address := "b", position := (3, 0), emergency := false }

/-- A registry holding `peerA` then `peerB` (insertion order). -/
def nlSortDemo : NeighborNodeList :=
  { nodes := [peerA, peerB], strategy := .GeoDistance, emergency := none }

/-- `NeighborNodeList::sort` in its GeoDistance arm (`global/mod.rs` lines
231-239): delegate to `sort_by_distance` with the distances to the current
node, leaving the strategy and emergency untouched. -/
def NeighborNodeList.sortGeo (l : NeighborNodeList) (score : NeighborNode → ℚ) :
    NeighborNodeList :=
  { l with nodes := sort_by_distance score l.nodes }

/-- The invariant tying a pool state to the ghost list of addresses handed
out and not yet released: in-use addresses are recorded in the filter, no
in-use address sits in `available`, and both lists are duplicate-free. -/
def PoolInv (a : Addresses) (inUse : List Nat) : Prop :=
  inUse.Nodup ∧ (∀ ip ∈ inUse, ip ∈ a.filter) ∧
    (∀ ip ∈ a.available, ip ∉ inUse) ∧ a.available.Nodup

/-! # Theorems -/

/-- C2: a `POST /invoke` request with `hops > 10` is answered with HTTP 500
and the body `"Too many hops\n"`, and the handler changes nothing: the CPU
accountant is untouched (no reservation) and no invocation record is
created, because the hop check precedes the emergency branch, the
admission and the record insertion. -/
theorem invoke_rejects_too_many_hops (st : NodeState) (data : InvokeFunction)
    (availMem : Nat) (inEm : Bool) (off : InvokeResponse)
    (envs : Nat → AttemptEnv) (h : data.hops > 10) :
    invoke st data availMem inEm off envs = (st, .err500 "Too many hops\n") := by
  simp [invoke, h]

/-- Witness for C2: the node with 4 free CPU units and an empty record log
receives the request with `hops = 11`; the handler returns 500
`"Too many hops\n"` and the state is unchanged. -/
theorem invoke_rejects_too_many_hops_witness :
    invoke ⟨⟨4⟩, 0⟩ reqHops11 1000000000 false (.err500 "x") (fun _ => envAllOk) =
      (⟨⟨4⟩, 0⟩, .err500 "Too many hops\n") :=
  invoke_rejects_too_many_hops ⟨⟨4⟩, 0⟩ reqHops11 1000000000 false
    (.err500 "x") (fun _ => envAllOk) (by decide)

/-- C1 (code bug): on a node whose accountant holds 4 free CPU units, a
single failed admission for 8 vcpus — `check_and_acquire_resources`
acquires nothing on any of its error paths — is followed by the handler's
`release_resources(8)` call (`endpoints.rs` line 114), which drives
`free_cpu_units` to 12, outside `[0, cpu_total] = [0, 4]` while no CPUs are
reserved, contradicting the claimed invariant
`free = cpu_total − Σ reserved`. -/
theorem invoke_failed_admission_inflates_free_cpus :
    (invoke ⟨⟨4⟩, 0⟩ reqEight 1000000000 false (.err500 "x")
      (fun _ => envAllOk)).1.resources.cpus_available = 12 ∧
    ¬ (invoke ⟨⟨4⟩, 0⟩ reqEight 1000000000 false (.err500 "x")
      (fun _ => envAllOk)).1.resources.cpus_available ≤ 4 := by
  constructor <;> decide

/-- C3: the host→guest framing. With a payload the stream carries exactly
the 8-byte big-endian length followed by the raw payload bytes; without a
payload it carries exactly eight zero bytes; the length prefix decodes back
to the payload length (mod 2^64); and the payload `"abc"` (bytes
97, 98, 99) produces exactly `00 00 00 00 00 00 00 03 61 62 63`. -/
theorem host_to_guest_framing_correct :
    (∀ p : List Nat, hostToGuestBytes (some p) = u64ToBeBytes p.length ++ p) ∧
    hostToGuestBytes none = List.replicate 8 0 ∧
    (∀ n : Nat, beBytesToNat (u64ToBeBytes n) = n % 2 ^ 64) ∧
    hostToGuestBytes (some [97, 98, 99]) =
      [0, 0, 0, 0, 0, 0, 0, 3, 97, 98, 99] := by
  refine ⟨fun p => rfl, by decide, fun n => ?_, by decide⟩
  simp only [beBytesToNat, u64ToBeBytes, List.foldl]
  omega

/-- C5 (code bug): the live offload path posts the request unchanged.
`NeighborNodeType::invoke` (`global/mod.rs` lines 73-96) serializes `data`
as received, so a request arriving with `hops = 0` is forwarded with
`hops = 0`, not `1`; the superseded `Node::invoke`
(`global_resources.rs` lines 139-147) did increment the counter. -/
theorem offload_sends_hops_unchanged :
    (∀ data : InvokeFunction, (neighborNodeTypeInvokeSent data).hops = data.hops) ∧
    (neighborNodeTypeInvokeSent reqNoPayload).hops = 0 ∧
    (neighborNodeTypeInvokeSent reqNoPayload).hops ≠ reqNoPayload.hops + 1 ∧
    (nodeInvokeSent reqNoPayload).hops = 1 := by
  refine ⟨fun data => rfl, by decide, by decide, by decide⟩

/-- Counterexample for C8: the value `"SmartLatency"` is not accepted —
`Orchestrator::new` falls back to GeoDistance for it — and a missing
variable does not abort startup either, while the spec-side selection
(`specStrategyFromEnv`) accepts `SmartLatency` and aborts on a missing
value. -/
theorem strategy_env_cx :
    strategyFromEnv (some "SmartLatency") = .GeoDistance ∧
    specStrategyFromEnv (some "SmartLatency") = some .SmartLatency ∧
    strategyFromEnv none = .GeoDistance ∧
    specStrategyFromEnv none = none := by
  refine ⟨by decide, by decide, rfl, rfl⟩

/-- C8 as amended: the startup strategy selection is total (startup is
never aborted by `STRATEGY`); the exact value `"SimpleCellular"` selects
SimpleCellular and every other value — `"SmartLatency"`, any unrecognized
string, or a missing variable — silently falls back to GeoDistance. -/
theorem strategy_env_fallback_geo (env : Option String)
    (h : env ≠ some "SimpleCellular") :
    strategyFromEnv env = .GeoDistance := by
  cases env with
  | none => rfl
  | some s =>
    have hs : s ≠ "SimpleCellular" := fun hs => h (by rw [hs])
    by_cases h2 : s = "GeoDistance" <;> simp [strategyFromEnv, hs, h2]

/-- Witness for C8: with `STRATEGY=SmartLatency` startup proceeds with the
GeoDistance fallback. -/
theorem strategy_env_fallback_geo_witness :
    strategyFromEnv (some "SmartLatency") = .GeoDistance :=
  strategy_env_fallback_geo (some "SmartLatency") (by decide)

/-- Unfolding the retry loop on a successful attempt: the loop stops with
that attempt's body and the rows it inserted. -/
theorem invokeLoopAux_ok (data : InvokeFunction) (envs : Nat → AttemptEnv)
    (rem retries : Nat) (body : List Nat) (recs : Nat) (wr : List Nat)
    (hs : start_instance data (envs retries) = (.ok body, recs, wr)) :
    invokeLoopAux data envs (rem + 1) retries = (1, some body, recs) := by
  simp [invokeLoopAux, hs]

/-- Unfolding the retry loop on a failed attempt: the loop is re-driven at
`retries + 1`, whatever the error was. -/
theorem invokeLoopAux_err (data : InvokeFunction) (envs : Nat → AttemptEnv)
    (rem retries : Nat) (e : InstanceError) (recs : Nat) (wr : List Nat)
    (hs : start_instance data (envs retries) = (.error e, recs, wr)) :
    (invokeLoopAux data envs (rem + 1) retries).1 =
      (invokeLoopAux data envs rem (retries + 1)).1 + 1 ∧
    (invokeLoopAux data envs (rem + 1) retries).2.1 =
      (invokeLoopAux data envs rem (retries + 1)).2.1 := by
  simp [invokeLoopAux, hs]

/-- The loop drives at most `rem` attempts. -/
theorem invokeLoopAux_attempts_le (data : InvokeFunction) (envs : Nat → AttemptEnv) :
    ∀ rem retries, (invokeLoopAux data envs rem retries).1 ≤ rem := by
  intro rem
  induction rem with
  | zero =>
    intro retries
    simp [invokeLoopAux]
  | succ rem ih =>
    intro retries
    rcases hs : start_instance data (envs retries) with ⟨res, recs, wr⟩
    cases res with
    | ok body =>
      simp [invokeLoopAux_ok data envs rem retries body recs wr hs]
    | error e =>
      have h1 := (invokeLoopAux_err data envs rem retries e recs wr hs).1
      have h2 := ih (retries + 1)
      omega

/-- With at least one attempt allowed, the loop drives at least one. -/
theorem invokeLoopAux_attempts_pos (data : InvokeFunction) (envs : Nat → AttemptEnv)
    (rem retries : Nat) :
    1 ≤ (invokeLoopAux data envs (rem + 1) retries).1 := by
  rcases hs : start_instance data (envs retries) with ⟨res, recs, wr⟩
  cases res with
  | ok body =>
    simp [invokeLoopAux_ok data envs rem retries body recs wr hs]
  | error e =>
    have h1 := (invokeLoopAux_err data envs rem retries e recs wr hs).1
    omega

/-- Counterexample for C4: an attempt whose handshake succeeded
(`handshakeSucceeded` is true for the oracle) fails afterwards at the
payload write, and the handler's loop nevertheless drives
`start_instance` a second time — the pipeline is re-driven after a
post-handshake failure, refuting the claim that such failures are
terminal. -/
theorem invoke_retries_after_handshake_cx :
    handshakeSucceeded envPostFail = true ∧
    (start_instance reqPayloadA envPostFail).1 = .error .VSock ∧
    (invokeLoopFrom reqPayloadA envsPostThenOk 0).1 = 2 := by
  refine ⟨by decide, rfl, rfl⟩

/-- C4 as amended: the handler drives `start_instance` at most 4 times
(the initial attempt plus at most 3 retries), stops at the first success,
and re-drives the pipeline after *any* failure — whether observed before
or after a successful handshake — as long as attempts remain; after four
failures it gives up with no body. -/
theorem invoke_retry_policy (data : InvokeFunction) (envs : Nat → AttemptEnv) :
    (invokeLoopFrom data envs 0).1 ≤ 4 ∧
    (∀ body recs wr, start_instance data (envs 0) = (.ok body, recs, wr) →
      invokeLoopFrom data envs 0 = (1, some body, recs)) ∧
    (∀ i, i ≤ 2 →
      (∀ j, j ≤ i → ∃ e recs wr,
        start_instance data (envs j) = (.error e, recs, wr)) →
      i + 2 ≤ (invokeLoopFrom data envs 0).1) ∧
    ((∀ j, j ≤ 3 → ∃ e recs wr,
        start_instance data (envs j) = (.error e, recs, wr)) →
      (invokeLoopFrom data envs 0).1 = 4 ∧
        (invokeLoopFrom data envs 0).2.1 = none) := by
  have e4 : invokeLoopFrom data envs 0 = invokeLoopAux data envs 4 0 := rfl
  refine ⟨?_, ?_, ?_, ?_⟩
  · rw [e4]
    exact invokeLoopAux_attempts_le data envs 4 0
  · intro body recs wr hs
    rw [e4]
    exact invokeLoopAux_ok data envs 3 0 body recs wr hs
  · intro i hi hall
    rw [e4]
    obtain ⟨e0, r0, w0, h0⟩ := hall 0 (by omega)
    have s0 := invokeLoopAux_err data envs 3 0 e0 r0 w0 h0
    norm_num at s0
    interval_cases i
    · have p1 := invokeLoopAux_attempts_pos data envs 2 1
      norm_num at p1
      omega
    · obtain ⟨e1, r1, w1, h1⟩ := hall 1 (by omega)
      have s1 := invokeLoopAux_err data envs 2 1 e1 r1 w1 h1
      norm_num at s1
      have p2 := invokeLoopAux_attempts_pos data envs 1 2
      norm_num at p2
      omega
    · obtain ⟨e1, r1, w1, h1⟩ := hall 1 (by omega)
      have s1 := invokeLoopAux_err data envs 2 1 e1 r1 w1 h1
      norm_num at s1
      obtain ⟨e2, r2, w2, h2⟩ := hall 2 (by omega)
      have s2 := invokeLoopAux_err data envs 1 2 e2 r2 w2 h2
      norm_num at s2
      have p3 := invokeLoopAux_attempts_pos data envs 0 3
      norm_num at p3
      omega
  · intro hall
    rw [e4]
    obtain ⟨e0, r0, w0, h0⟩ := hall 0 (by omega)
    have s0 := invokeLoopAux_err data envs 3 0 e0 r0 w0 h0
    norm_num at s0
    obtain ⟨e1, r1, w1, h1⟩ := hall 1 (by omega)
    have s1 := invokeLoopAux_err data envs 2 1 e1 r1 w1 h1
    norm_num at s1
    obtain ⟨e2, r2, w2, h2⟩ := hall 2 (by omega)
    have s2 := invokeLoopAux_err data envs 1 2 e2 r2 w2 h2
    norm_num at s2
    obtain ⟨e3, r3, w3, h3⟩ := hall 3 (by omega)
    have s3 := invokeLoopAux_err data envs 0 3 e3 r3 w3 h3
    norm_num at s3
    have hz1 : (invokeLoopAux data envs 0 4).1 = 0 := by simp [invokeLoopAux]
    have hz2 : (invokeLoopAux data envs 0 4).2.1 = none := by simp [invokeLoopAux]
    constructor
    · omega
    · rw [s0.2, s1.2, s2.2, s3.2, hz2]

/-- Witness for C4: with a post-handshake failure on the first attempt
(`envsPostThenOk`), the loop is driven at least twice and at most four
times. -/
theorem invoke_retry_policy_witness :
    0 + 2 ≤ (invokeLoopFrom reqPayloadA envsPostThenOk 0).1 ∧
    (invokeLoopFrom reqPayloadA envsPostThenOk 0).1 ≤ 4 :=
  ⟨(invoke_retry_policy reqPayloadA envsPostThenOk).2.2.1 0 (by decide)
      (fun j hj => by
        interval_cases j
        exact ⟨.VSock, 1, [], rfl⟩),
    (invoke_retry_policy reqPayloadA envsPostThenOk).1⟩

/-- Counterexample for C6: a registry whose only peer was masked by an
earlier emergency at position `(10, 10)` — about 1,565,000 m from the
origin — receives `set_emergency` for an emergency at the origin with
radius 2,000 m.  The peer stays masked although its distance exceeds the
radius, refuting `masked ⇔ distance ≤ radius`. -/
theorem set_emergency_stale_mask_cx :
    (nlDemo.set_emergency demoDist emDemo).nodes =
      [{ address := "p3", position := (10, 10), emergency := true }] ∧
    ¬ demoDist emDemo.position peerP3.position ≤ emDemo.radius := by
  constructor <;> decide

/-- C6 as amended: after `set_emergency(em)` a peer is masked iff it was
already masked or its geodesic distance to `em.position` is at most
`em.radius` — the call only adds masks (peers outside the disk keep a
stale mask from an earlier emergency) — and `em` is stored as the active
emergency.  `dist` is the external geodesic-distance oracle. -/
theorem set_emergency_mask_accumulates (dist : ℚ × ℚ → ℚ × ℚ → ℚ)
    (l : NeighborNodeList) (em : Emergency) :
    (l.set_emergency dist em).nodes =
      l.nodes.map (fun n =>
        { n with emergency :=
            n.emergency || decide (dist em.position n.position ≤ em.radius) }) ∧
    (l.set_emergency dist em).emergency = some em := by
  constructor
  · simp only [NeighborNodeList.set_emergency, setEmergencyNodes]
    apply List.map_congr_left
    intro n _
    by_cases hd : dist em.position n.position ≤ em.radius <;> simp [hd]
  · rfl

/-- The `get_nth_closest_node` loop never succeeds for `n = 0`: the
counter is incremented before the comparison, so it is compared only at
values `≥ 1`. -/
theorem getNthClosestAux_zero (nodes : List NeighborNode) (c : Nat) :
    getNthClosestAux nodes 0 c = none := by
  induction nodes generalizing c with
  | nil => rfl
  | cons node rest ih =>
    unfold getNthClosestAux
    by_cases h : node.emergency <;> simp [h, ih]

/-- The `get_nth_closest_node` loop at `n + 1` coincides with the
`get_nth` loop at `n`. -/
theorem getNthClosestAux_succ (nodes : List NeighborNode) (n c : Nat) :
    getNthClosestAux nodes (n + 1) c = getNthAux nodes n c := by
  induction nodes generalizing c with
  | nil => rfl
  | cons node rest ih =>
    unfold getNthClosestAux getNthAux
    by_cases h : node.emergency
    · simp [h, ih]
    · by_cases hc : c = n
      · simp [h, hc]
      · have hne : ¬(c + 1 = n + 1) := by omega
        simp [h, hc, hne, ih]

/-- The `get_nth` loop returns the `(n − c)`-th element of the registry
with masked peers dropped. -/
theorem getNthAux_eq_filter_getElem (nodes : List NeighborNode) (n c : Nat)
    (h : c ≤ n) :
    getNthAux nodes n c = (nodes.filter fun x => !x.emergency)[n - c]? := by
  induction nodes generalizing c with
  | nil => simp [getNthAux]
  | cons node rest ih =>
    unfold getNthAux
    by_cases he : node.emergency
    · simp [he, ih c h]
    · by_cases hc : c = n
      · subst hc
        simp [he, Nat.sub_self]
      · have h1 : c + 1 ≤ n := by omega
        have hs : n - c = (n - (c + 1)) + 1 := by omega
        simp [he, hc, ih (c + 1) h1, hs]

/-- C10: the two unmasked-peer accessors disagree by one.
`geo_distance::get_nth_closest_node` returns `None` at `n = 0` for every
registry and query position (even with unmasked peers present), and at
`n + 1` returns what `NeighborNodeList::get_nth` returns at `n`;
`get_nth` itself returns the `i`-th unmasked peer counted from 0 (the
`i`-th element of the registry with masked peers dropped). -/
theorem nth_accessors_off_by_one :
    (∀ (l : NeighborNodeList) (pos : ℚ × ℚ), get_nth_closest_node l pos 0 = none) ∧
    (∀ (l : NeighborNodeList) (pos : ℚ × ℚ) (n : Nat),
      get_nth_closest_node l pos (n + 1) = l.get_nth n) ∧
    (∀ (l : NeighborNodeList) (i : Nat),
      l.get_nth i = (l.nodes.filter fun x => !x.emergency)[i]?) := by
  refine ⟨?_, ?_, ?_⟩
  · intro l pos
    exact getNthClosestAux_zero l.nodes 0
  · intro l pos n
    exact getNthClosestAux_succ l.nodes n 0
  · intro l i
    simpa using getNthAux_eq_filter_getElem l.nodes i 0 (Nat.zero_le i)

/-- The comparator of `sort_by_distance` is transitive. -/
theorem scoreLe_trans (score : NeighborNode → ℚ) :
    ∀ a b c : NeighborNode, decide (score a ≤ score b) = true →
      decide (score b ≤ score c) = true → decide (score a ≤ score c) = true := by
  intro a b c hab hbc
  simp only [decide_eq_true_eq] at hab hbc ⊢
  exact le_trans hab hbc

/-- The comparator of `sort_by_distance` is total. -/
theorem scoreLe_total (score : NeighborNode → ℚ) :
    ∀ a b : NeighborNode,
      (decide (score a ≤ score b) || decide (score b ≤ score a)) = true := by
  intro a b
  simp only [Bool.or_eq_true, decide_eq_true_eq]
  exact le_total _ _

/-- After `sort_by_distance` the whole node list is pairwise non-decreasing
in score. -/
theorem sort_by_distance_pairwise (score : NeighborNode → ℚ) (nodes : List NeighborNode) :
    (sort_by_distance score nodes).Pairwise fun a b => score a ≤ score b := by
  have h := List.sorted_mergeSort (scoreLe_trans score) (scoreLe_total score) nodes
  exact h.imp (by intro a b hab; simpa using hab)

/-- C7: after the registry is sorted under GeoDistance, for all
`i < j < count_available()` the score of the `i`-th unmasked peer is at
most the score of the `j`-th (the unmasked subsequence inherits the
non-decreasing order of the full sorted list), and peers with equal scores
keep their insertion order: any equal-score pair appearing in that order
in the original list still appears in that order after the stable sort.
`score` is the external geodesic distance to the local identity. -/
theorem sort_geo_nth_scores_monotone (score : NeighborNode → ℚ) (l : NeighborNodeList) :
    (∀ i j a b, i < j → j < count_available (l.sortGeo score) →
      (l.sortGeo score).get_nth i = some a →
      (l.sortGeo score).get_nth j = some b →
      score a ≤ score b) ∧
    (∀ a b, score a = score b → [a, b].Sublist l.nodes →
      [a, b].Sublist (l.sortGeo score).nodes) := by
  constructor
  · intro i j a b hij hj ha hb
    rw [NeighborNodeList.get_nth, getNthAux_eq_filter_getElem _ i 0 (Nat.zero_le i),
      Nat.sub_zero] at ha
    rw [NeighborNodeList.get_nth, getNthAux_eq_filter_getElem _ j 0 (Nat.zero_le j),
      Nat.sub_zero] at hb
    obtain ⟨hil, hia⟩ := List.getElem?_eq_some.mp ha
    obtain ⟨hjl, hjb⟩ := List.getElem?_eq_some.mp hb
    have hsorted : ((l.sortGeo score).nodes.filter fun x => !x.emergency).Pairwise
        fun a b => score a ≤ score b :=
      List.Pairwise.sublist (List.filter_sublist _) (sort_by_distance_pairwise score l.nodes)
    have hmono := List.pairwise_iff_getElem.mp hsorted i j hil hjl hij
    rw [← hia, ← hjb]
    exact hmono
  · intro a b hab hsub
    exact List.pair_sublist_mergeSort (scoreLe_trans score) (scoreLe_total score)
      (by simp [hab]) hsub

/-- Witness for C7: sorting the two-peer demo registry under the concrete
score puts `peerB` (score 3) before `peerA` (score 5); the 0-th and 1-st
unmasked peers have non-decreasing scores. -/
theorem sort_geo_nth_scores_monotone_witness :
    (nlSortDemo.sortGeo scoreFst).get_nth 0 = some peerB ∧
    (nlSortDemo.sortGeo scoreFst).get_nth 1 = some peerA ∧
    scoreFst peerB ≤ scoreFst peerA := by
  have hnodes : (nlSortDemo.sortGeo scoreFst).nodes = [peerB, peerA] := by
    norm_num [NeighborNodeList.sortGeo, sort_by_distance, nlSortDemo, peerA, peerB,
      scoreFst, List.mergeSort, List.merge]
  have h0 : (nlSortDemo.sortGeo scoreFst).get_nth 0 = some peerB := by
    show getNthAux (nlSortDemo.sortGeo scoreFst).nodes 0 0 = some peerB
    rw [hnodes]
    decide
  have h1 : (nlSortDemo.sortGeo scoreFst).get_nth 1 = some peerA := by
    show getNthAux (nlSortDemo.sortGeo scoreFst).nodes 1 0 = some peerA
    rw [hnodes]
    decide
  have hcav : 1 < count_available (nlSortDemo.sortGeo scoreFst) := by
    show 1 < ((nlSortDemo.sortGeo scoreFst).nodes.filter fun n => !n.emergency).length
    rw [hnodes]
    decide
  exact ⟨h0, h1,
    (sort_geo_nth_scores_monotone scoreFst nlSortDemo).1 0 1 peerB peerA
      (by decide) hcav h0 h1⟩

/-- A successful scan returns an address not yet in the filter, records it
in the filter, and leaves `available` untouched. -/
theorem getScan_some (a : Addresses) :
    ∀ (fuel i : Nat) (a2 : Addresses) (ip : Nat),
      getScan a i fuel = (a2, some ip) →
      ip ∉ a.filter ∧ a2.available = a.available ∧ a2.filter = ip :: a.filter := by
  intro fuel
  induction fuel with
  | zero =>
    intro i a2 ip h
    simp [getScan] at h
  | succ fuel ih =>
    intro i a2 ip h
    unfold getScan at h
    split at h
    · rw [Prod.mk.injEq] at h
      exact absurd h.2 (by simp)
    · split at h
      · rename_i hfresh
        rw [Prod.mk.injEq] at h
        obtain ⟨h1, h2⟩ := h
        injection h2 with h2
        subst h2
        rw [← h1]
        exact ⟨by simpa using hfresh, rfl, rfl⟩
      · split at h
        · rw [Prod.mk.injEq] at h
          exact absurd h.2 (by simp)
        · exact ih (i + 1) a2 ip h

/-- A failed scan leaves `available` and the filter untouched. -/
theorem getScan_none (a : Addresses) :
    ∀ (fuel i : Nat) (a2 : Addresses),
      getScan a i fuel = (a2, none) →
      a2.available = a.available ∧ a2.filter = a.filter := by
  intro fuel
  induction fuel with
  | zero =>
    intro i a2 h
    simp [getScan] at h
    rw [← h]
    exact ⟨rfl, rfl⟩
  | succ fuel ih =>
    intro i a2 h
    unfold getScan at h
    split at h
    · rw [Prod.mk.injEq] at h
      rw [← h.1]
      exact ⟨rfl, rfl⟩
    · split at h
      · rw [Prod.mk.injEq] at h
        exact absurd h.2 (by simp)
      · split at h
        · rw [Prod.mk.injEq] at h
          rw [← h.1]
          exact ⟨rfl, rfl⟩
        · exact ih (i + 1) a2 h

/-- `get` preserves the pool invariant and returns an address that is not
currently in use: the scan path returns an address outside the filter
(which contains all in-use addresses), the pop path returns an address
from `available` (disjoint from the in-use addresses). -/
theorem poolInv_get_some (a : Addresses) (inUse : List Nat) (a2 : Addresses) (ip : Nat)
    (hinv : PoolInv a inUse) (h : a.get = (a2, some ip)) :
    ip ∉ inUse ∧ PoolInv a2 (ip :: inUse) := by
  obtain ⟨hnd, hsub, hav, havnd⟩ := hinv
  unfold Addresses.get at h
  cases hava : a.available with
  | nil =>
    rw [hava] at h
    obtain ⟨hni, hav2, hf2⟩ := getScan_some a a.size (a.last_assigned + 1) a2 ip h
    have hnotin : ip ∉ inUse := fun hm => hni (hsub ip hm)
    refine ⟨hnotin, List.nodup_cons.mpr ⟨hnotin, hnd⟩, ?_, ?_, ?_⟩
    · intro x hx
      rw [hf2]
      rcases List.mem_cons.mp hx with rfl | hx2
      · exact List.mem_cons_self x _
      · exact List.mem_cons_of_mem _ (hsub x hx2)
    · intro x hx
      rw [hav2, hava] at hx
      exact absurd hx (List.not_mem_nil x)
    · rw [hav2, hava]
      exact List.nodup_nil
  | cons ip0 rest =>
    rw [hava] at h
    rw [Prod.mk.injEq] at h
    obtain ⟨h1, h2⟩ := h
    injection h2 with h2
    subst h2
    have hip0av : ip0 ∈ a.available := by
      rw [hava]
      exact List.mem_cons_self ip0 rest
    have hnotin : ip0 ∉ inUse := hav ip0 hip0av
    have hndcons := havnd
    rw [hava] at hndcons
    refine ⟨hnotin, List.nodup_cons.mpr ⟨hnotin, hnd⟩, ?_, ?_, ?_⟩
    · intro x hx
      rw [← h1]
      rcases List.mem_cons.mp hx with rfl | hx2
      · exact List.mem_cons_self x _
      · exact List.mem_cons_of_mem _ (hsub x hx2)
    · intro x hx
      rw [← h1] at hx
      have hxav : x ∈ a.available := by
        rw [hava]
        exact List.mem_cons_of_mem _ hx
      intro hmem
      rcases List.mem_cons.mp hmem with rfl | hx2
      · exact (List.nodup_cons.mp hndcons).1 hx
      · exact hav x hxav hx2
    · rw [← h1]
      exact (List.nodup_cons.mp hndcons).2

/-- A `get` that hands out nothing preserves the pool invariant. -/
theorem poolInv_get_none (a : Addresses) (inUse : List Nat) (a2 : Addresses)
    (hinv : PoolInv a inUse) (h : a.get = (a2, none)) :
    PoolInv a2 inUse := by
  obtain ⟨hnd, hsub, hav, havnd⟩ := hinv
  unfold Addresses.get at h
  cases hava : a.available with
  | nil =>
    rw [hava] at h
    obtain ⟨hav2, hf2⟩ := getScan_none a a.size (a.last_assigned + 1) a2 h
    refine ⟨hnd, ?_, ?_, ?_⟩
    · intro x hx
      rw [hf2]
      exact hsub x hx
    · intro x hx
      rw [hav2] at hx
      exact hav x hx
    · rw [hav2]
      exact havnd
  | cons ip0 rest =>
    rw [hava] at h
    rw [Prod.mk.injEq] at h
    exact absurd h.2 (by simp)

/-- Releasing an in-use address preserves the pool invariant. -/
theorem poolInv_release (a : Addresses) (inUse : List Nat) (ip : Nat)
    (hinv : PoolInv a inUse) (hm : ip ∈ inUse) :
    PoolInv (a.release ip) (inUse.erase ip) := by
  obtain ⟨hnd, hsub, hav, havnd⟩ := hinv
  refine ⟨hnd.erase ip, ?_, ?_, ?_⟩
  · intro x hx
    have hxm : x ∈ inUse := List.mem_of_mem_erase hx
    have hxne : x ≠ ip := ((hnd.mem_erase_iff).mp hx).1
    show x ∈ a.filter.erase ip
    exact (List.mem_erase_of_ne hxne).mpr (hsub x hxm)
  · intro x hx
    rcases List.mem_cons.mp hx with rfl | hx2
    · intro hmem
      exact ((hnd.mem_erase_iff).mp hmem).1 rfl
    · intro hmem
      exact hav x hx2 (List.mem_of_mem_erase hmem)
  · exact List.nodup_cons.mpr ⟨fun hipav => hav ip hipav hm, havnd⟩

/-- Inductive core: from any state satisfying the pool invariant, a trace
whose releases are all of in-use addresses only ever hands out addresses
that are not in use. -/
theorem pool_gets_unique_aux (ops : List PoolOp) :
    ∀ (a : Addresses) (inUse : List Nat), PoolInv a inUse →
      releasesWellFormed a inUse ops = true →
      getsUnique a inUse ops = true := by
  induction ops with
  | nil =>
    intro a inUse _ _
    rfl
  | cons op rest ih =>
    intro a inUse hinv hwf
    cases op with
    | get =>
      unfold releasesWellFormed at hwf
      unfold getsUnique
      cases hg : a.get with
      | mk a2 res =>
        rw [hg] at hwf
        cases res with
        | some ip =>
          obtain ⟨hni, hinv2⟩ := poolInv_get_some a inUse a2 ip hinv hg
          simp only [Bool.and_eq_true]
          refine ⟨by simpa using hni, ih a2 (ip :: inUse) hinv2 hwf⟩
        | none =>
          exact ih a2 inUse (poolInv_get_none a inUse a2 hinv hg) hwf
    | release ip =>
      unfold releasesWellFormed at hwf
      simp only [Bool.and_eq_true] at hwf
      obtain ⟨hmem, hwf2⟩ := hwf
      unfold getsUnique
      exact ih (a.release ip) (inUse.erase ip)
        (poolInv_release a inUse ip hinv (by simpa using hmem)) hwf2

/-- C9 as amended: starting from a fresh pool, for every sequence of
`get()` / `release()` calls in which each `release` is of an address
currently in use (handed out and not yet released), every address a `get`
returns is not in use at that moment — it is never handed out again
without an intervening release. -/
theorem pool_gets_unique_when_releases_wf (base prefixLen : Nat) (ops : List PoolOp)
    (hwf : releasesWellFormed (Addresses.new base prefixLen) [] ops = true) :
    getsUnique (Addresses.new base prefixLen) [] ops = true :=
  pool_gets_unique_aux ops (Addresses.new base prefixLen) []
    ⟨List.nodup_nil, fun ip hip => absurd hip (List.not_mem_nil ip),
     fun ip hip => absurd hip (List.not_mem_nil ip), List.nodup_nil⟩ hwf

/-- Witness for C9: on a /24 pool, the trace get, release, get is
well-formed and every get returns an address not in use. -/
theorem pool_gets_unique_when_releases_wf_witness :
    getsUnique (Addresses.new 0 24) [] [.get, .release 2, .get] = true :=
  pool_gets_unique_when_releases_wf 0 24 [.get, .release 2, .get] (by decide)

/-- Counterexample for C9 as stated: with an unrestricted call sequence, a
double release of the same address makes two consecutive `get()` calls
return that address (2, here) with no release in between, so uniqueness
fails over arbitrary `get`/`release` interleavings. -/
theorem pool_double_release_cx :
    getsUnique (Addresses.new 0 24) [] [.get, .release 2, .release 2, .get, .get] = false ∧
    ((((Addresses.new 0 24).get.1.release 2).release 2).get.2 = some 2 ∧
      ((((Addresses.new 0 24).get.1.release 2).release 2).get.1.get.2 = some 2)) := by
  refine ⟨by decide, by decide, by decide⟩

end Spare
